import Mathlib

/-!
Verification of the multi-index RAG server core
(`app/services/multi_index_vector_store.py`, `app/services/document_processor.py`,
`app/api/v1/endpoints/documents.py`).

The embedding below translates the Python source into Lean:

* Python strings handled character-wise (the chunker) become `List Char`;
  Python slicing/indexing (including negative indices) is modelled by
  `pySlice`/`pyIndex`, and `str.strip()` by `pyStrip`.
* The Qdrant backend is an environment passed to each operation: a `Store`
  maps a collection name to the ranked hit list the backend would return for
  the query under consideration (the query's embedding determines that
  ranking, which is external model inference, so the ranked answer itself is
  the oracle).  A collection name absent from the `Store` is a collection
  that does not exist on the server: the qdrant client raises an
  `UnexpectedResponse` (HTTP 404) for it, modelled as `Except.error`.
* Fallible Python code returns `Except`; the chunking loop, whose
  termination is one of the claims, additionally takes fuel and is wrapped
  in `PyRes`, whose `timeout` value means the fuel was exhausted.
* `settings` (`app/core/config.py`) becomes an explicit `Settings` record
  with the source defaults in `defaultSettings`.
-/

/-- Payload values stored by the service are JSON scalars; the code only
reads strings and integers from them (`text`, `file_id`, `chunk_index`,
`total_chunks`, ...). -/
inductive Val where
  | str : String → Val
  | int : Int → Val
deriving DecidableEq

/-- A Qdrant point payload / Python dict, as an association list in
insertion order (Python dicts preserve insertion order; keys are unique). -/
abbrev Payload := List (String × Val)

/-- Python `base.update(extra)`: keys of `extra` override those of `base`;
modelled so that `List.lookup` sees the overriding value. -/
def pyUpdate (base extra : Payload) : Payload :=
  base.filter (fun kv => (List.lookup kv.1 extra).isNone) ++ extra

/-- One scored point as returned by `client.search`: id, score (the code
stores it under the key `distance`) and payload.  Scores are modelled as
integers: the code never computes with them, it only sorts by them. -/
structure RawHit where
  id : String
  score : Int
  payload : Payload
deriving DecidableEq

/-- One formatted search result, built in
`MultiIndexVectorStore.search_single_collection` (lines 192-201):
`{'content': payload.get('text',''), 'metadata': payload minus text,
'distance': result.score, 'id': result.id, 'collection': collection_name}`. -/
structure SearchHit where
  content : Val
  metadata : Payload
  distance : Int
  id : String
  collection : String
deriving DecidableEq

/-- The backend oracle for one query: for each existing collection, the
ranked list of hits the backend would return for the query being asked
(before the `limit` cut).  Absent name = collection does not exist. -/
abbrev Store := List (String × List RawHit)

/-- The relevant fields of `app/core/config.py` `Settings`. -/
structure Settings where
  offline_mode : Bool
  top_k : Nat
  chunk_size : Int
  chunk_overlap : Int
deriving DecidableEq

/-- Source defaults: `offline_mode=False`, `top_k=5`, `chunk_size=1000`,
`chunk_overlap=200`. -/
def defaultSettings : Settings :=
  { offline_mode := false, top_k := 5, chunk_size := 1000, chunk_overlap := 200 }

/-- The `self.collections` dict of `MultiIndexVectorStore.__init__`
(lines 21-29), in insertion order. -/
def collectionsDict : List (String × String) :=
  [("pdf", "rag_pdf_documents"),
   ("docx", "rag_docx_documents"),
   ("xlsx", "rag_xlsx_documents"),
   ("csv", "rag_csv_documents"),
   ("txt", "rag_txt_documents"),
   ("image", "rag_image_documents"),
   ("default", "rag_documents")]

/-- Python `self.collections.values()`. -/
def collectionValues : List String := collectionsDict.map (fun kv => kv.2)

/-- Embedding of `MultiIndexVectorStore._get_collection_name` (lines 73-80).
It is a plain function of the file type, so it is pure and deterministic by
construction. -/
def getCollectionName (file_type : String) : String :=
  if file_type = "png" ∨ file_type = "jpg" ∨ file_type = "jpeg" then
    "rag_image_documents"
  else
    match List.lookup file_type collectionsDict with
    | some c => c
    | none => "rag_documents"

/-- The `search` mode dispatch reads `filter_metadata["file_type"]`, which is
an arbitrary payload value; a non-string value matches no key of
`self.collections` and no entry of `['png','jpg','jpeg']`, so it falls to the
default collection. -/
def getCollectionNameV : Val → String
  | Val.str s => getCollectionName s
  | Val.int _ => "rag_documents"

/-- The filter built in `search_single_collection` (lines 174-179): a
conjunction of equality conditions, one per `filter_metadata` entry. -/
def matchesFilter (filter_metadata : Payload) (h : RawHit) : Bool :=
  filter_metadata.all (fun kv => List.lookup kv.1 h.payload == some kv.2)

/-- Model of `self.client.search(collection_name, query_vector, limit,
query_filter, ...)`: filter the collection's ranked hits by the payload
filter and return the first `limit`.  A collection that does not exist makes
the qdrant client raise (HTTP 404), modelled by `Except.error`. -/
def clientSearch (store : Store) (collection_name : String) (limit : Nat)
    (query_filter : Payload) : Except Unit (List RawHit) :=
  match List.lookup collection_name store with
  | none => Except.error ()
  | some hits => Except.ok (List.take limit (hits.filter (matchesFilter query_filter)))

/-- The result-formatting loop of `search_single_collection` (lines 192-201). -/
def formatHit (collection_name : String) (r : RawHit) : SearchHit :=
  { content := (List.lookup "text" r.payload).getD (Val.str ""),
    metadata := r.payload.filter (fun kv => kv.1 ≠ "text"),
    distance := r.score,
    id := r.id,
    collection := collection_name }

/-- Embedding of `MultiIndexVectorStore.search_single_collection`
(lines 161-210).  `top_k` is `Option Nat`: Python's `if top_k is None:
top_k = settings.top_k`.  Any backend exception is logged and re-raised
(lines 205-210), i.e. propagated. -/
def searchSingleCollection (cfg : Settings) (store : Store) (collection_name : String)
    (top_k : Option Nat) (filter_metadata : Payload) : Except Unit (List SearchHit) :=
  let k := top_k.getD cfg.top_k
  match clientSearch store collection_name k filter_metadata with
  | Except.error e => Except.error e
  | Except.ok rs => Except.ok (rs.map (formatHit collection_name))

/-- Embedding of `MultiIndexVectorStore.search_multiple_collections`
(lines 212-253).  The Python signature is
`collections: List[str] = []`, `top_k_per_collection: int = 1`; both
`is None` guards are modelled by `Option` (Python `None` = `none`, the
default `[]` = `some []`).  `max(1, settings.top_k // len(collections))`
raises `ZeroDivisionError` when `collections` is empty, hence the error
branch.  A collection whose search raises is skipped (lines 233-235); the
merged list is stably sorted ascending by `distance` and truncated to
`settings.top_k` (lines 238-239), not to the caller's `top_k`. -/
def searchMultipleCollections (cfg : Settings) (store : Store)
    (collections : Option (List String)) (top_k_per_collection : Option Nat)
    (filter_metadata : Payload) : Except Unit (List SearchHit) :=
  let cols := collections.getD collectionValues
  match (match top_k_per_collection with
         | some k => Except.ok k
         | none =>
           if cols.length = 0 then Except.error ()
           else Except.ok (max 1 (cfg.top_k / cols.length))) with
  | Except.error e => Except.error e
  | Except.ok kper =>
    let all_results := cols.foldl (fun acc c =>
      match searchSingleCollection cfg store c (some kper) filter_metadata with
      | Except.error _ => acc
      | Except.ok rs => acc ++ rs) []
    Except.ok (List.take cfg.top_k
      (all_results.mergeSort (fun a b => a.distance ≤ b.distance)))

/-- Embedding of `MultiIndexVectorStore.search` (lines 278-326).  Note that
the mode `"all"` call (lines 287-291) passes no `collections` argument, so
`search_multiple_collections` receives its default `[]` (here `some []`),
and passes the caller's whole `top_k` as `top_k_per_collection`.  The
`"file_type"`/`"collection"` guards include Python's truthiness test on
`filter_metadata`, subsumed by the key lookup succeeding. -/
def search (cfg : Settings) (store : Store) (top_k : Nat)
    (filter_metadata : Payload) (search_mode : String) : Except Unit (List SearchHit) :=
  if cfg.offline_mode then Except.ok []
  else if search_mode = "all" then
    searchMultipleCollections cfg store (some []) (some top_k) filter_metadata
  else if search_mode = "file_type" ∧ (List.lookup "file_type" filter_metadata).isSome then
    searchSingleCollection cfg store
      (getCollectionNameV ((List.lookup "file_type" filter_metadata).getD (Val.str "")))
      (some top_k) filter_metadata
  else if search_mode = "collection" ∧ (List.lookup "collection" filter_metadata).isSome then
    match (List.lookup "collection" filter_metadata).getD (Val.str "") with
    | Val.str name => searchSingleCollection cfg store name (some top_k) filter_metadata
    | Val.int _ => Except.error ()
  else
    searchMultipleCollections cfg store (some []) (some top_k) filter_metadata

/-- Outcome of one `client.delete(collection_name, points_selector=filter)`
call for a given collection and file id.  A delete whose filter matches
nothing still succeeds on the backend; only an unreachable backend or a
missing collection raises. -/
abbrev DeleteEnv := String → String → Except Unit Unit

/-- Embedding of `MultiIndexVectorStore.delete_document` (lines 328-366):
iterate over every known collection, count the calls that did not raise
(raising ones are logged and skipped), return `deleted_count > 0`. -/
def deleteDocument (cfg : Settings) (env : DeleteEnv) (file_id : String) : Bool :=
  if cfg.offline_mode then true
  else
    let deleted_count := collectionValues.foldl (fun n c =>
      match env c file_id with
      | Except.error _ => n
      | Except.ok _ => n + 1) 0
    decide (deleted_count > 0)

/-- One stored point returned by `client.scroll`. -/
structure ScrollPoint where
  id : String
  payload : Payload
deriving DecidableEq

/-- Outcome of `client.scroll(collection_name, scroll_filter=file_id filter,
limit=1000, ...)` for a given collection and file id: the matching points,
or an exception. -/
abbrev ScrollEnv := String → String → Except Unit (List ScrollPoint)

/-- The per-point record built in `get_document_chunks` (lines 490-498). -/
structure ChunkData where
  id : String
  content : Val
  metadata : Payload
  collection : String
deriving DecidableEq

/-- The chunk record formatting of `get_document_chunks` (lines 492-497). -/
def formatChunk (collection_name : String) (p : ScrollPoint) : ChunkData :=
  { id := p.id,
    content := (List.lookup "text" p.payload).getD (Val.str ""),
    metadata := p.payload.filter (fun kv => kv.1 ≠ "text"),
    collection := collection_name }

/-- Python `x['metadata'].get('chunk_index', 0)`, the sort key of
`get_document_chunks` (line 505).  A missing key defaults to 0.  (The code
would raise a `TypeError` while sorting if the field held a non-integer;
the ingest path only ever writes integers there.) -/
def chunkIndexKey (c : ChunkData) : Int :=
  match List.lookup "chunk_index" c.metadata with
  | some (Val.int k) => k
  | _ => 0

/-- The aggregation loop of `get_document_chunks` (lines 472-502): scroll
every known collection, skip a collection whose scroll raised, concatenate
the formatted chunk records in collection order. -/
def gatherChunks (env : ScrollEnv) (file_id : String) : List ChunkData :=
  collectionValues.foldl (fun acc c =>
    match env c file_id with
    | Except.error _ => acc
    | Except.ok pts => acc ++ pts.map (formatChunk c)) []

/-- Embedding of `MultiIndexVectorStore.get_document_chunks`
(lines 465-517): offline short-circuit, aggregation, then the stable
ascending sort `all_chunks.sort(key=lambda x: x['metadata'].get('chunk_index', 0))`. -/
def getDocumentChunks (cfg : Settings) (env : ScrollEnv) (file_id : String) : List ChunkData :=
  if cfg.offline_mode then []
  else (gatherChunks env file_id).mergeSort (fun a b => chunkIndexKey a ≤ chunkIndexKey b)

/-- Characters stripped by Python `str.strip()` (the ASCII ones; the claims
never involve the remaining Unicode whitespace). -/
def pySpace (c : Char) : Bool :=
  c = ' ' ∨ c = '\t' ∨ c = '\n' ∨ c = '\r' ∨ c = '\x0B' ∨ c = '\x0C'

/-- Python `text.strip()` on a character list. -/
def pyStrip (l : List Char) : List Char :=
  ((l.dropWhile pySpace).reverse.dropWhile pySpace).reverse

/-- The sentence-terminal test `text[i] in '.!?'` of
`DocumentProcessor.chunk_text` (line 243). -/
def isSentenceEnd (c : Char) : Bool :=
  c = '.' ∨ c = '!' ∨ c = '?'

/-- Python `text[i]` for an `int` index: negative indices count from the
end, out-of-range indices raise `IndexError` (`none`). -/
def pyIndex (text : List Char) (i : Int) : Option Char :=
  if 0 ≤ i then
    if i < (text.length : Int) then some (text.getD i.toNat ' ') else none
  else
    if 0 ≤ (text.length : Int) + i then some (text.getD ((text.length : Int) + i).toNat ' ')
    else none

/-- Normalisation of one slice bound, as in Python `text[a:b]`: negative
bounds count from the end and everything is clamped to `[0, len]`. -/
def sliceIdx (n : Nat) (i : Int) : Nat :=
  if i < 0 then ((n : Int) + i).toNat else min i.toNat n

/-- Python `text[a:b]` for `int` bounds. -/
def pySlice (text : List Char) (a b : Int) : List Char :=
  (text.take (sliceIdx text.length b)).drop (sliceIdx text.length a)

/-- The backward scan `for i in range(end, max(start + chunk_size - 100,
start), -1): if text[i] in '.!?': end = i + 1; break` of `chunk_text`
(lines 242-245).  `steps` is the number of loop iterations
(`end - max(...)` when positive), `i` starts at `end`.  `some j` is the new
`end`, `none` means no sentence terminal was found; `Except.error` is an
`IndexError` from `text[i]`. -/
def scanBack (text : List Char) : Nat → Int → Except Unit (Option Int)
  | 0, _ => Except.ok none
  | steps + 1, i =>
    match pyIndex text i with
    | none => Except.error ()
    | some c =>
      if isSentenceEnd c then Except.ok (some (i + 1))
      else scanBack text steps (i - 1)

/-- The window-end computation of one `chunk_text` iteration
(lines 237-245): `end = start + chunk_size`, then, only when `end <
len(text)`, scan backwards for a sentence terminal and move `end` there. -/
def findEnd (text : List Char) (start chunk_size : Int) : Except Unit Int :=
  let e := start + chunk_size
  if e < (text.length : Int) then
    match scanBack text (e - max (e - 100) start).toNat e with
    | Except.error u => Except.error u
    | Except.ok none => Except.ok e
    | Except.ok (some j) => Except.ok j
  else Except.ok e

/-- Result of running a piece of Python code under fuel: `timeout` means the
fuel ran out (used to reason about non-termination), `exn` an uncaught
exception, `ok` a normal return. -/
inductive PyRes (α : Type) where
  | timeout : PyRes α
  | exn : PyRes α
  | ok : α → PyRes α
deriving DecidableEq

/-- The `while start < len(text)` loop of `chunk_text` (lines 236-253):
compute the window end, strip the slice `text[start:end]`, keep it when
non-empty, set `start = end - overlap` and stop as soon as
`start >= len(text)`. -/
def chunkLoop (text : List Char) (chunk_size overlap : Int) :
    Nat → Int → List (List Char) → PyRes (List (List Char))
  | 0, _, _ => PyRes.timeout
  | fuel + 1, start, chunks =>
    if start < (text.length : Int) then
      match findEnd text start chunk_size with
      | Except.error _ => PyRes.exn
      | Except.ok e =>
        let chunk := pyStrip (pySlice text start e)
        let chunks1 := if chunk.isEmpty then chunks else chunks ++ [chunk]
        if (text.length : Int) ≤ e - overlap then PyRes.ok chunks1
        else chunkLoop text chunk_size overlap fuel (e - overlap) chunks1
    else PyRes.ok chunks

/-- Embedding of `DocumentProcessor.chunk_text` (lines 228-255): a text that
fits within `chunk_size` is returned verbatim as the single chunk
(line 230-231, with no strip); otherwise the sliding-window loop runs. -/
def chunkText (text : List Char) (chunk_size overlap : Int) (fuel : Nat) :
    PyRes (List (List Char)) :=
  if (text.length : Int) ≤ chunk_size then PyRes.ok [text]
  else chunkLoop text chunk_size overlap fuel 0 []

/-- One point built by `MultiIndexVectorStore.add_document` (lines 133-137);
the vector itself (external model inference) carries no information the
claims need. -/
structure IndexPoint where
  id : String
  payload : Payload
deriving DecidableEq

/-- The payload of chunk `i` built in `add_document` (lines 117-130):
structural fields, then `point_metadata.update(metadata)` for the caller
metadata.  (The optional nested `document_metadata` dict from the extractor
is orthogonal to every claim and not modelled.) -/
def pointPayload (total : Nat) (file_type file_id collection_name : String)
    (metadata : Payload) (i : Nat) (chunk : List Char) : Payload :=
  pyUpdate
    [("file_id", Val.str file_id),
     ("file_type", Val.str file_type),
     ("collection", Val.str collection_name),
     ("chunk_index", Val.int i),
     ("total_chunks", Val.int total),
     ("chunk_size", Val.int chunk.length),
     ("text", Val.str (String.mk chunk))]
    metadata

/-- The point-building loop of `add_document` (lines 107-138): point `i` has
id `f"{file_id}_chunk_{i}"` and the payload above. -/
def buildPoints (chunks : List (List Char)) (file_type file_id collection_name : String)
    (metadata : Payload) : List IndexPoint :=
  chunks.enum.map (fun p =>
    { id := file_id ++ "_chunk_" ++ toString p.1,
      payload := pointPayload chunks.length file_type file_id collection_name metadata p.1 p.2 })

/-- The stored contents of the vector database: collection name → stored
points (the write side of the backend, as opposed to the per-query ranked
`Store` oracle on the read side). -/
abbrev DB := List (String × List IndexPoint)

/-- Model of `client.upsert(collection_name, points)`: insert-or-overwrite
by point id within one collection. -/
def upsertPoints (db : DB) (collection_name : String) (points : List IndexPoint) : DB :=
  if (List.lookup collection_name db).isSome then
    db.map (fun kv =>
      if kv.1 = collection_name then
        (kv.1, kv.2.filter (fun p => points.all (fun q => q.id ≠ p.id)) ++ points)
      else kv)
  else db ++ [(collection_name, points)]

/-- Embedding of `MultiIndexVectorStore.add_document` (lines 82-159) from the
extracted text on: offline short-circuit before any backend call
(lines 85-87), `ValueError` on whitespace-only text (lines 93-94), chunking
with the configured sizes, routing, point building, upsert.  The extraction
step itself (`process_document`) is an external format decoder; its output
is the `text` argument. -/
def addDocument (cfg : Settings) (db : DB) (text : List Char)
    (file_type file_id : String) (metadata : Payload) (fuel : Nat) :
    PyRes (String × DB) :=
  if cfg.offline_mode then PyRes.ok (file_id, db)
  else if (pyStrip text).isEmpty then PyRes.exn
  else
    match chunkText text cfg.chunk_size cfg.chunk_overlap fuel with
    | PyRes.timeout => PyRes.timeout
    | PyRes.exn => PyRes.exn
    | PyRes.ok chunks =>
      let collection_name := getCollectionName file_type
      PyRes.ok (file_id,
        upsertPoints db collection_name (buildPoints chunks file_type file_id collection_name metadata))

/-- The acknowledgement status of `upload_document`
(`app/api/v1/endpoints/documents.py` lines 107-113): `"completed"` in
offline mode, `"processing"` otherwise.  The response is returned
immediately; processing is a background task. -/
def uploadStatus (cfg : Settings) : String :=
  if cfg.offline_mode then "completed" else "processing"

/-- Total number of hits the backend holds across all collections of a
store (used to state the merged-length claim). -/
def totalHits (store : Store) : Nat :=
  (store.map (fun kv => kv.2.length)).sum

/-- A demo backend holding scored points in two collections (used by
witnesses and counterexamples to show non-vacuity). -/
def demoStore : Store :=
  [("rag_pdf_documents",
    [{ id := "d1_chunk_0", score := 1,
       payload := [("file_id", Val.str "d1"), ("text", Val.str "alpha")] },
     { id := "d1_chunk_1", score := 3,
       payload := [("file_id", Val.str "d1"), ("text", Val.str "beta")] }]),
   ("rag_txt_documents",
    [{ id := "d2_chunk_0", score := 2,
       payload := [("file_id", Val.str "d2"), ("text", Val.str "gamma")] },
     { id := "d2_chunk_1", score := 4,
       payload := [("file_id", Val.str "d2"), ("text", Val.str "delta")] }])]

/-- A backend on which every one of the seven standard collections exists
(and is empty); the name `nope` does not exist on it. -/
def emptyCollectionsStore : Store := collectionValues.map (fun c => (c, []))

/-- A delete environment in which exactly the `rag_documents` collection
delete call succeeds. -/
def demoDeleteEnv : DeleteEnv := fun c _ =>
  if c = "rag_documents" then Except.ok () else Except.error ()

/-- A scroll environment: `rag_txt_documents` holds two chunks (returned out
of order), `rag_pdf_documents` raises, the rest are empty. -/
def demoScrollEnv : ScrollEnv := fun c _ =>
  if c = "rag_txt_documents" then
    Except.ok
      [{ id := "f1_chunk_1", payload := [("chunk_index", Val.int 1), ("text", Val.str "b")] },
       { id := "f1_chunk_0", payload := [("chunk_index", Val.int 0), ("text", Val.str "a")] }]
  else if c = "rag_pdf_documents" then Except.error ()
  else Except.ok []

/-- Offline configuration (the source defaults with `offline_mode=True`). -/
def offlineSettings : Settings := { defaultSettings with offline_mode := true }

/-- The text `"a.zzz"` on which the chunking loop never advances. -/
def loopText : List Char := ['a', '.', 'z', 'z', 'z']

/-- C1.  The claim says mode `"all"` fans the query out to every collection,
requesting `max(1, top_k / collection_count)` hits from each.  The code does
not: `search` passes no `collections` argument, `search_multiple_collections`
defaults it to `[]`, and the `if collections is None` guard never fires on
`[]`, so zero collections are searched and mode `"all"` returns the empty
list for every store, query and `top_k` (the caller's `top_k` is also passed
whole as the per-collection limit, and the final truncation uses
`settings.top_k`, not the caller's). -/
theorem c1_search_all_returns_empty (cfg : Settings) (store : Store) (top_k : Nat)
    (fm : Payload) (h : cfg.offline_mode = false) :
    search cfg store top_k fm "all" = Except.ok [] := by
  simp [search, searchMultipleCollections, h, List.mergeSort_nil]

theorem c1_search_all_returns_empty_w :
    search defaultSettings demoStore 5 [] "all" = Except.ok [] :=
  c1_search_all_returns_empty defaultSettings demoStore 5 [] rfl

/-- C2.  The claim says the mode-`"all"` merge has length
`min(top_k, total hits returned)`.  On a backend with two collections of two
hits each (four hits total) and `top_k = 5`, the code returns a sequence of
length 0, not `min 5 4 = 4`, because mode `"all"` searches zero collections
(see C1). -/
theorem c2_merged_length_zero :
    ∃ res, search defaultSettings demoStore 5 [] "all" = Except.ok res ∧
      res.length = 0 ∧ min 5 (totalHits demoStore) = 4 := by
  refine ⟨[], ?_, rfl, rfl⟩
  simp [search, searchMultipleCollections, List.mergeSort_nil, defaultSettings]

/-- C7.  `delete_document` returns `True` iff at least one per-collection
delete call completed without raising; a call that matched zero points still
counts as a success, and the result is `False` only when every collection
call raised. -/
theorem c7_delete_success_iff (cfg : Settings) (env : DeleteEnv) (file_id : String)
    (h : cfg.offline_mode = false) :
    deleteDocument cfg env file_id = true ↔
      ∃ c ∈ collectionValues, env c file_id = Except.ok () := by
  have hcount : ∀ (l : List String) (n : Nat),
      l.foldl (fun n c => match env c file_id with
        | Except.error _ => n
        | Except.ok _ => n + 1) n
      = n + l.countP (fun c => match env c file_id with
        | Except.error _ => false
        | Except.ok _ => true) := by
    intro l
    induction l with
    | nil => intro n; simp
    | cons a t ih =>
      intro n
      simp only [List.foldl_cons, List.countP_cons]
      cases henv : env a file_id with
      | error e => simp [henv, ih]
      | ok u => simp only [henv, ih, if_true]; ring
  rw [deleteDocument, if_neg (by simp [h]), hcount]
  simp only [Nat.zero_add, decide_eq_true_eq, List.countP_pos_iff]
  constructor
  · rintro ⟨c, hc, hok⟩
    refine ⟨c, hc, ?_⟩
    revert hok
    cases henv : env c file_id with
    | error e => simp
    | ok u => simp [henv]
  · rintro ⟨c, hc, hok⟩
    refine ⟨c, hc, ?_⟩
    rw [hok]

theorem c7_delete_success_iff_w :
    deleteDocument defaultSettings demoDeleteEnv "f1" = true :=
  (c7_delete_success_iff defaultSettings demoDeleteEnv "f1" rfl).mpr
    ⟨"rag_documents", by decide, rfl⟩

/-- C8.  The file-type routing is a plain function (hence pure and
deterministic); `png`, `jpg` and `jpeg` all map to the image collection, and
any file type outside the routed set maps to the default collection
`rag_documents`. -/
theorem c8_route_pure_total :
    getCollectionName "png" = "rag_image_documents" ∧
    getCollectionName "jpg" = "rag_image_documents" ∧
    getCollectionName "jpeg" = "rag_image_documents" ∧
    ∀ ft : String,
      ft ∉ ["pdf", "docx", "xlsx", "csv", "txt", "image", "default", "png", "jpg", "jpeg"] →
      getCollectionName ft = "rag_documents" := by
  refine ⟨rfl, rfl, rfl, ?_⟩
  intro ft hft
  simp only [List.mem_cons, List.not_mem_nil, or_false, not_or] at hft
  obtain ⟨h1, h2, h3, h4, h5, h6, h7, h8, h9, h10⟩ := hft
  have e : ∀ s : String, ft ≠ s → (ft == s) = false := fun s hs =>
    beq_eq_false_iff_ne.mpr hs
  simp [getCollectionName, collectionsDict, List.lookup, h8, h9, h10,
        e _ h1, e _ h2, e _ h3, e _ h4, e _ h5, e _ h6, e _ h7]

theorem c8_route_pure_total_w : getCollectionName "exe" = "rag_documents" :=
  c8_route_pure_total.2.2.2 "exe" (by decide)

/-- C9.  In offline mode the upload endpoint acknowledges with status
`"completed"` immediately, `search` returns the empty sequence, and
`add_document` (the background processing) returns `file_id` with the
database untouched.  Because the offline short-circuit sits before any
client call, the results do not depend on the backend at all (`store` and
`db` are arbitrary and `db` is returned unchanged): no backend call is
made. -/
theorem c9_offline_noop (cfg : Settings) (h : cfg.offline_mode = true) :
    uploadStatus cfg = "completed" ∧
    (∀ (store : Store) (top_k : Nat) (fm : Payload) (mode : String),
      search cfg store top_k fm mode = Except.ok []) ∧
    (∀ (db : DB) (text : List Char) (ft fid : String) (meta : Payload) (fuel : Nat),
      addDocument cfg db text ft fid meta fuel = PyRes.ok (fid, db)) := by
  refine ⟨?_, ?_, ?_⟩
  · simp [uploadStatus, h]
  · intro store top_k fm mode; simp [search, h]
  · intro db text ft fid meta fuel; simp [addDocument, h]

theorem c9_offline_noop_w :
    uploadStatus offlineSettings = "completed" ∧
    search offlineSettings demoStore 5 [] "all" = Except.ok [] ∧
    addDocument offlineSettings [] [' '] "txt" "f1" [] 0 = PyRes.ok ("f1", []) :=
  ⟨(c9_offline_noop offlineSettings rfl).1,
   (c9_offline_noop offlineSettings rfl).2.1 demoStore 5 [] "all",
   (c9_offline_noop offlineSettings rfl).2.2 [] [' '] "txt" "f1" [] 0⟩

/-- C6 counterexample.  The claim says an unknown collection name in mode
`"collection"` yields an empty result, not an error.  On a backend holding
all seven standard collections but no collection `nope`, the code instead
propagates the backend's exception (the qdrant client raises for a
non-existent collection and `search_single_collection` re-raises): the call
errors rather than returning `[]`. -/
theorem c6_unknown_collection_raises :
    search defaultSettings emptyCollectionsStore 5
      [("collection", Val.str "nope")] "collection" = Except.error () := by
  rfl

/-- C6 amended: mode `"collection"` queries exactly the collection named in
`filter_metadata.collection` (the call reduces to the single-collection
search on that name with the same filter); when that name is unknown to the
backend, the backend's exception propagates to the caller instead of being
converted to an empty result. -/
theorem c6_collection_mode_exact (cfg : Settings) (store : Store) (top_k : Nat)
    (fm : Payload) (name : String) (h : cfg.offline_mode = false)
    (hname : List.lookup "collection" fm = some (Val.str name)) :
    search cfg store top_k fm "collection"
      = searchSingleCollection cfg store name (some top_k) fm ∧
    (List.lookup name store = none →
      search cfg store top_k fm "collection" = Except.error ()) := by
  have hbase : search cfg store top_k fm "collection"
      = searchSingleCollection cfg store name (some top_k) fm := by
    simp [search, h, hname]
  refine ⟨hbase, fun habs => ?_⟩
  rw [hbase]
  simp [searchSingleCollection, clientSearch, habs]

theorem c6_collection_mode_exact_w :
    search defaultSettings demoStore 5 [("collection", Val.str "nope")] "collection"
      = searchSingleCollection defaultSettings demoStore "nope" (some 5)
          [("collection", Val.str "nope")] :=
  (c6_collection_mode_exact defaultSettings demoStore 5
    [("collection", Val.str "nope")] "nope" rfl rfl).1

/-- C10.  `get_document_chunks` returns a permutation of the chunk records
gathered from all collections (a collection whose scroll raised contributes
nothing, see `gatherChunks`), sorted ascending by the `chunk_index` payload
field with a missing field treated as index 0 (see `chunkIndexKey`). -/
theorem c10_chunks_sorted_aggregation (cfg : Settings) (env : ScrollEnv)
    (file_id : String) (h : cfg.offline_mode = false) :
    (getDocumentChunks cfg env file_id).Perm (gatherChunks env file_id) ∧
    (getDocumentChunks cfg env file_id).Pairwise
      (fun a b => chunkIndexKey a ≤ chunkIndexKey b) := by
  unfold getDocumentChunks
  rw [if_neg (by simp [h])]
  constructor
  · exact List.mergeSort_perm _ _
  · have hs := List.sorted_mergeSort
      (fun (a b c : ChunkData) (hab : decide (chunkIndexKey a ≤ chunkIndexKey b) = true)
           (hbc : decide (chunkIndexKey b ≤ chunkIndexKey c) = true) => by
        simp only [decide_eq_true_eq] at hab hbc ⊢
        omega)
      (fun (a b : ChunkData) => by
        simp only [Bool.or_eq_true, decide_eq_true_eq]
        omega)
      (gatherChunks env file_id)
    exact hs.imp (fun hab => by simpa using hab)

theorem c10_chunks_sorted_aggregation_w :
    (getDocumentChunks defaultSettings demoScrollEnv "f1").Perm
      (gatherChunks demoScrollEnv "f1") ∧
    (getDocumentChunks defaultSettings demoScrollEnv "f1").Pairwise
      (fun a b => chunkIndexKey a ≤ chunkIndexKey b) :=
  c10_chunks_sorted_aggregation defaultSettings demoScrollEnv "f1" rfl

/-- Rewriting lemma: one iteration of the chunking loop that ends with
`start = end - overlap` still below the text length continues with the
stripped slice appended when non-empty. -/
theorem chunkLoop_step_cont (text : List Char) (cs ov : Int) (fuel : Nat) (start : Int)
    (chunks : List (List Char)) (e : Int)
    (hs : start < (text.length : Int))
    (hfe : findEnd text start cs = Except.ok e)
    (hcont : ¬ (text.length : Int) ≤ e - ov) :
    chunkLoop text cs ov (fuel + 1) start chunks =
      chunkLoop text cs ov fuel (e - ov)
        (if (pyStrip (pySlice text start e)).isEmpty then chunks
         else chunks ++ [pyStrip (pySlice text start e)]) := by
  rw [chunkLoop, if_pos hs, hfe]
  simp only [if_neg hcont]

/-- Rewriting lemma: an iteration whose updated `start` reaches the text
length hits the `break` and returns the accumulated chunks. -/
theorem chunkLoop_step_stop (text : List Char) (cs ov : Int) (fuel : Nat) (start : Int)
    (chunks : List (List Char)) (e : Int)
    (hs : start < (text.length : Int))
    (hfe : findEnd text start cs = Except.ok e)
    (hstop : (text.length : Int) ≤ e - ov) :
    chunkLoop text cs ov (fuel + 1) start chunks =
      PyRes.ok (if (pyStrip (pySlice text start e)).isEmpty then chunks
                else chunks ++ [pyStrip (pySlice text start e)]) := by
  rw [chunkLoop, if_pos hs, hfe]
  simp only [if_pos hstop]

/-- On `"a.zzz"` with `chunk_size=3`, `overlap=2`, every iteration of the
loop finds the sentence terminal at index 1, sets `end = 2` and therefore
`start = end - overlap = 0` again: the loop state never advances and the
fuel always runs out. -/
theorem chunkLoop_loopText_stuck : ∀ (fuel : Nat) (chunks : List (List Char)),
    chunkLoop loopText 3 2 fuel 0 chunks = PyRes.timeout := by
  intro fuel
  induction fuel with
  | zero => intro chunks; rfl
  | succ n ih =>
    intro chunks
    rw [chunkLoop_step_cont loopText 3 2 n 0 chunks 2 (by decide) (by rfl) (by decide)]
    simpa using ih _

/-- C3.  The claim says `chunk_text` terminates for every `chunk_size > 0`
and `0 ≤ overlap < chunk_size` because the window start strictly advances.
It does not: on the text `"a.zzz"` with `chunk_size=3` and `overlap=2`
(which satisfy `0 ≤ overlap < chunk_size`), the sentence-boundary
backtracking moves `end` back to 2, so `start = end - overlap` stays 0
forever and the loop never terminates — under any amount of fuel the
embedded loop times out. -/
theorem c3_chunk_text_nonterminating (fuel : Nat) :
    chunkText loopText 3 2 fuel = PyRes.timeout := by
  rw [chunkText, if_neg (by decide)]
  exact chunkLoop_loopText_stuck fuel []

/-- Rewriting lemma: an iteration whose window-end computation raised an
`IndexError` propagates the exception. -/
theorem chunkLoop_step_err (text : List Char) (cs ov : Int) (fuel : Nat) (start : Int)
    (chunks : List (List Char)) (u : Unit)
    (hs : start < (text.length : Int))
    (hfe : findEnd text start cs = Except.error u) :
    chunkLoop text cs ov (fuel + 1) start chunks = PyRes.exn := by
  rw [chunkLoop, if_pos hs, hfe]

/-- Rewriting lemma: when `start` has reached the text length, the `while`
condition fails and the accumulated chunks are returned. -/
theorem chunkLoop_step_done (text : List Char) (cs ov : Int) (fuel : Nat) (start : Int)
    (chunks : List (List Char))
    (hs : ¬ start < (text.length : Int)) :
    chunkLoop text cs ov (fuel + 1) start chunks = PyRes.ok chunks := by
  rw [chunkLoop, if_neg hs]

/-- A dropWhile on a list none of whose elements satisfy the predicate is
the identity. -/
theorem dropWhile_eq_self_of_all {p : Char → Bool} {l : List Char}
    (h : ∀ c ∈ l, p c = false) : l.dropWhile p = l := by
  cases l with
  | nil => rfl
  | cons a t => simp [List.dropWhile_cons, h a (List.mem_cons_self a t)]

/-- Stripping a list with no whitespace is the identity. -/
theorem pyStrip_eq_self_of_all {l : List Char} (h : ∀ c ∈ l, pySpace c = false) :
    pyStrip l = l := by
  unfold pyStrip
  rw [dropWhile_eq_self_of_all h,
      dropWhile_eq_self_of_all (fun c hc => h c (List.mem_reverse.mp hc)),
      List.reverse_reverse]

/-- A non-empty dropWhile keeps the last element of the list. -/
theorem getLast?_dropWhile {p : Char → Bool} : ∀ (l : List Char),
    l.dropWhile p ≠ [] → (l.dropWhile p).getLast? = l.getLast? := by
  intro l
  induction l with
  | nil => intro h; simp at h
  | cons a t ih =>
    intro h
    rw [List.dropWhile_cons] at h ⊢
    by_cases hp : p a = true
    · rw [if_pos hp] at h ⊢
      have ht : t ≠ [] := by
        intro he
        rw [he] at h
        simp at h
      rw [ih h]
      cases t with
      | nil => exact absurd rfl ht
      | cons b t2 => rw [List.getLast?_cons_cons]
    · rw [if_neg hp]

/-- A dropWhile whose list head already fails the predicate is the
identity. -/
theorem dropWhile_eq_self_of_head {p : Char → Bool} {l : List Char}
    (h : ∀ a, l.head? = some a → p a = false) : l.dropWhile p = l := by
  cases l with
  | nil => rfl
  | cons a t =>
    rw [List.dropWhile_cons, if_neg]
    simp [h a rfl]

/-- The first character of a stripped list is not whitespace. -/
theorem head?_pyStrip_not {l : List Char} {a : Char}
    (h : (pyStrip l).head? = some a) : pySpace a = false := by
  unfold pyStrip at h
  rw [List.head?_reverse] at h
  have hne : ((l.dropWhile pySpace).reverse.dropWhile pySpace) ≠ [] := by
    intro he
    rw [he] at h
    simp at h
  rw [getLast?_dropWhile _ hne, List.getLast?_reverse] at h
  have hd := List.head?_dropWhile_not pySpace l
  rw [h] at hd
  exact hd

/-- The last character of a stripped list is not whitespace. -/
theorem getLast?_pyStrip_not {l : List Char} {a : Char}
    (h : (pyStrip l).getLast? = some a) : pySpace a = false := by
  unfold pyStrip at h
  rw [List.getLast?_reverse] at h
  have hd := List.head?_dropWhile_not pySpace (l.dropWhile pySpace).reverse
  rw [h] at hd
  exact hd

/-- Stripping a list whose first and last characters are not whitespace is
the identity. -/
theorem pyStrip_eq_self_of_trimmed {l : List Char}
    (hh : ∀ a, l.head? = some a → pySpace a = false)
    (hl : ∀ a, l.getLast? = some a → pySpace a = false) :
    pyStrip l = l := by
  unfold pyStrip
  rw [dropWhile_eq_self_of_head hh,
      dropWhile_eq_self_of_head (fun a ha => hl a (by rwa [List.head?_reverse] at ha)),
      List.reverse_reverse]

/-- Python `strip` is idempotent. -/
theorem pyStrip_idem (l : List Char) : pyStrip (pyStrip l) = pyStrip l := by
  by_cases h : pyStrip l = []
  · rw [h]
    rfl
  · exact pyStrip_eq_self_of_trimmed (fun a ha => head?_pyStrip_not ha)
      (fun a ha => getLast?_pyStrip_not ha)

/-- Loop invariant for C5: every chunk appended by the loop body is
`text[start:end].strip()` and is only kept when non-empty, so all chunks in
a normal return are non-empty even after (re-)trimming. -/
theorem chunkLoop_chunks_stripped (text : List Char) (cs ov : Int) :
    ∀ (fuel : Nat) (start : Int) (chunks res : List (List Char)),
      (∀ c ∈ chunks, pyStrip c ≠ []) →
      chunkLoop text cs ov fuel start chunks = PyRes.ok res →
      ∀ c ∈ res, pyStrip c ≠ [] := by
  intro fuel
  induction fuel with
  | zero =>
    intro start chunks res hinv h
    rw [chunkLoop] at h
    exact PyRes.noConfusion h
  | succ n ih =>
    intro start chunks res hinv h
    by_cases hs : start < (text.length : Int)
    · cases hfe : findEnd text start cs with
      | error u =>
        rw [chunkLoop_step_err text cs ov n start chunks u hs hfe] at h
        exact PyRes.noConfusion h
      | ok e =>
        have hinv1 : ∀ c ∈ (if (pyStrip (pySlice text start e)).isEmpty then chunks
            else chunks ++ [pyStrip (pySlice text start e)]), pyStrip c ≠ [] := by
          by_cases hemp : (pyStrip (pySlice text start e)).isEmpty = true
          · rw [if_pos hemp]; exact hinv
          · rw [if_neg hemp]
            intro c hc
            rcases List.mem_append.mp hc with h1 | h2
            · exact hinv c h1
            · have hc2 : c = pyStrip (pySlice text start e) := by simpa using h2
              rw [hc2, pyStrip_idem]
              intro hnil
              rw [hnil] at hemp
              simp at hemp
        by_cases hstop : (text.length : Int) ≤ e - ov
        · rw [chunkLoop_step_stop text cs ov n start chunks e hs hfe hstop] at h
          injection h with h2
          rw [← h2]
          exact hinv1
        · rw [chunkLoop_step_cont text cs ov n start chunks e hs hfe hstop] at h
          exact ih _ _ _ hinv1 h
    · rw [chunkLoop_step_done text cs ov n start chunks hs] at h
      injection h with h2
      rw [← h2]
      exact hinv

/-- C5 counterexample.  The claim says every returned chunk is non-empty
after trimming, including the single-chunk case where the text fits within
`chunk_size`.  The single-chunk case returns the text verbatim with no
trimming and no emptiness check (`return [text]`), so a whitespace-only
text such as `" "` yields the chunk `" "`, which is empty after trimming. -/
theorem c5_counterexample :
    ∃ res c, chunkText [' '] 1000 200 1 = PyRes.ok res ∧ c ∈ res ∧ pyStrip c = [] :=
  ⟨[[' ']], [' '], by rfl, by simp, by rfl⟩

/-- C5 amended: provided the text itself is non-empty after trimming, every
chunk returned by `chunk_text` (for any `chunk_size > 0` and
`0 ≤ overlap < chunk_size`) is non-empty after trimming — loop chunks are
stripped and filtered by construction, and the verbatim single-chunk case is
covered by the hypothesis on the text. -/
theorem c5_chunks_trimmed_nonempty (text : List Char) (cs ov : Int) (fuel : Nat)
    (res : List (List Char)) (hcs : 0 < cs) (hov0 : 0 ≤ ov) (hov : ov < cs)
    (htext : pyStrip text ≠ [])
    (h : chunkText text cs ov fuel = PyRes.ok res) :
    ∀ c ∈ res, pyStrip c ≠ [] := by
  rw [chunkText] at h
  by_cases hfit : (text.length : Int) ≤ cs
  · rw [if_pos hfit] at h
    injection h with h2
    rw [← h2]
    intro c hc
    have hct : c = text := by simpa using hc
    rw [hct]
    exact htext
  · rw [if_neg hfit] at h
    exact chunkLoop_chunks_stripped text cs ov fuel 0 [] res (by simp) h

theorem c5_chunks_trimmed_nonempty_w : pyStrip ['a'] ≠ [] :=
  c5_chunks_trimmed_nonempty ['a'] 1000 200 1 [['a']] (by norm_num) (by norm_num)
    (by norm_num) (by decide) (by rfl) ['a'] (by simp)

/-- A `getD` at an in-range index returns an element of the list. -/
theorem getD_mem {l : List Char} {i : Nat} (h : i < l.length) : l.getD i ' ' ∈ l := by
  rw [List.getD_eq_getElem?_getD, List.getElem?_eq_getElem h]
  exact List.getElem_mem h

/-- In-range non-negative Python indexing. -/
theorem pyIndex_pos {text : List Char} {i : Int} (h0 : 0 ≤ i)
    (hl : i < (text.length : Int)) :
    pyIndex text i = some (text.getD i.toNat ' ') := by
  rw [pyIndex, if_pos h0, if_pos hl]

/-- The backward sentence scan finds nothing on a text with no sentence
terminals (all scanned indices being in range). -/
theorem scanBack_none {text : List Char}
    (hne : ∀ c ∈ text, isSentenceEnd c = false) :
    ∀ (steps : Nat) (i : Int), (steps : Int) ≤ i + 1 → i < (text.length : Int) →
      scanBack text steps i = Except.ok none := by
  intro steps
  induction steps with
  | zero => intro i h1 h2; rfl
  | succ k ih =>
    intro i h1 h2
    have h0 : 0 ≤ i := by omega
    have hlt : i.toNat < text.length := by omega
    rw [scanBack, pyIndex_pos h0 h2]
    simp only [hne _ (getD_mem hlt), Bool.false_eq_true, if_false]
    exact ih (i - 1) (by omega) (by omega)

/-- On a text with no sentence terminals the window end is always exactly
`start + chunk_size`. -/
theorem findEnd_no_sentence {text : List Char} {start cs : Int}
    (hne : ∀ c ∈ text, isSentenceEnd c = false)
    (h0 : 0 ≤ start) (hcs : 0 ≤ cs) :
    findEnd text start cs = Except.ok (start + cs) := by
  by_cases hlt : start + cs < (text.length : Int)
  · have hM : start ≤ max (start + cs - 100) start := le_max_right _ _
    rw [findEnd, if_pos hlt, scanBack_none hne _ _ (by omega) hlt]
  · rw [findEnd, if_neg hlt]

/-- Length of a Python slice. -/
theorem length_pySlice (text : List Char) (a b : Int) :
    (pySlice text a b).length
      = min (sliceIdx text.length b) text.length - sliceIdx text.length a := by
  simp [pySlice, List.length_drop, List.length_take]

/-- Every character of a slice is a character of the text. -/
theorem mem_pySlice {text : List Char} {a b : Int} {c : Char}
    (h : c ∈ pySlice text a b) : c ∈ text :=
  List.mem_of_mem_take (List.mem_of_mem_drop h)

/-- A list of non-zero length is not empty. -/
theorem isEmpty_eq_false_of_length {l : List Char} (h : l.length ≠ 0) :
    l.isEmpty = false := by
  cases l with
  | nil => simp at h
  | cons a t => rfl

/-- The four-iteration run of the chunking loop on any 2500-character text
with no sentence terminals and no whitespace: windows `[0,1000)`,
`[800,1800)`, `[1600,2500)` and the trailing window `[2400,2500)` — the
third iteration leaves `start = 2600 - 200 = 2400 < 2500`, so a fourth
chunk is emitted before the loop stops. -/
theorem chunkText_plain_2500 (text : List Char) (hlen : text.length = 2500)
    (hterm : ∀ c ∈ text, isSentenceEnd c = false)
    (hsp : ∀ c ∈ text, pySpace c = false) :
    chunkText text 1000 200 10 =
      PyRes.ok [pySlice text 0 1000, pySlice text 800 1800,
                pySlice text 1600 2600, pySlice text 2400 3400] := by
  have hL : (text.length : Int) = 2500 := by rw [hlen]; rfl
  have hstrip : ∀ a b : Int, pyStrip (pySlice text a b) = pySlice text a b :=
    fun a b => pyStrip_eq_self_of_all (fun c hc => hsp c (mem_pySlice hc))
  have hFE : ∀ s : Int, 0 ≤ s → findEnd text s 1000 = Except.ok (s + 1000) :=
    fun s hs => findEnd_no_sentence hterm hs (by norm_num)
  have hne1 : (pySlice text 0 1000).isEmpty = false := by
    refine isEmpty_eq_false_of_length ?_
    rw [length_pySlice, hlen]
    decide
  have hne2 : (pySlice text 800 1800).isEmpty = false := by
    refine isEmpty_eq_false_of_length ?_
    rw [length_pySlice, hlen]
    decide
  have hne3 : (pySlice text 1600 2600).isEmpty = false := by
    refine isEmpty_eq_false_of_length ?_
    rw [length_pySlice, hlen]
    decide
  have hne4 : (pySlice text 2400 3400).isEmpty = false := by
    refine isEmpty_eq_false_of_length ?_
    rw [length_pySlice, hlen]
    decide
  rw [chunkText, if_neg (by rw [hL]; norm_num)]
  rw [show (10 : Nat) = 9 + 1 from rfl,
      chunkLoop_step_cont text 1000 200 9 0 [] 1000 (by rw [hL]; norm_num)
        (by simpa using hFE 0 le_rfl) (by rw [hL]; norm_num)]
  simp only [hne1, Bool.false_eq_true, if_false, List.nil_append, hstrip]
  norm_num
  rw [show (9 : Nat) = 8 + 1 from rfl,
      chunkLoop_step_cont text 1000 200 8 800 [pySlice text 0 1000] 1800
        (by rw [hL]; norm_num) (by simpa using hFE 800 (by norm_num))
        (by rw [hL]; norm_num)]
  simp only [hne2, Bool.false_eq_true, if_false, List.cons_append, List.nil_append, hstrip]
  norm_num
  rw [show (8 : Nat) = 7 + 1 from rfl,
      chunkLoop_step_cont text 1000 200 7 1600
        [pySlice text 0 1000, pySlice text 800 1800] 2600
        (by rw [hL]; norm_num) (by simpa using hFE 1600 (by norm_num))
        (by rw [hL]; norm_num)]
  simp only [hne3, Bool.false_eq_true, if_false, List.cons_append, List.nil_append, hstrip]
  norm_num
  rw [show (7 : Nat) = 6 + 1 from rfl,
      chunkLoop_step_stop text 1000 200 6 2400
        [pySlice text 0 1000, pySlice text 800 1800, pySlice text 1600 2600] 3400
        (by rw [hL]; norm_num) (by simpa using hFE 2400 (by norm_num))
        (by rw [hL]; norm_num)]
  simp only [hne4, Bool.false_eq_true, if_false, List.cons_append, List.nil_append, hstrip]

/-- C4 amended: a 2500-character text with no sentence terminals and no
whitespace yields exactly 4 chunks under `chunk_size=1000`, `overlap=200`
(not 3: after the window `[1600,2500)` the next start is `2600-200=2400`,
still inside the text, so a trailing chunk `[2400,2500)` is emitted), and the
indexed points therefore carry `chunk_index` 0,1,2,3 and `total_chunks=4`. -/
theorem c4_plain_2500_four_chunks (text : List Char) (ft fid coll : String)
    (hlen : text.length = 2500)
    (hterm : ∀ c ∈ text, isSentenceEnd c = false)
    (hsp : ∀ c ∈ text, pySpace c = false) :
    ∃ chunks, chunkText text 1000 200 10 = PyRes.ok chunks ∧
      chunks.length = 4 ∧
      (buildPoints chunks ft fid coll []).map
          (fun p => List.lookup "chunk_index" p.payload)
        = [some (Val.int 0), some (Val.int 1), some (Val.int 2), some (Val.int 3)] ∧
      (buildPoints chunks ft fid coll []).map
          (fun p => List.lookup "total_chunks" p.payload)
        = [some (Val.int 4), some (Val.int 4), some (Val.int 4), some (Val.int 4)] := by
  refine ⟨_, chunkText_plain_2500 text hlen hterm hsp, rfl, ?_, ?_⟩
  · simp [buildPoints, pointPayload, pyUpdate, List.enum, List.enumFrom, List.lookup]
  · simp [buildPoints, pointPayload, pyUpdate, List.enum, List.enumFrom, List.lookup]

/-- C4 counterexample.  The claim says every 2500-character text yields
exactly 3 chunks with `chunk_size=1000`, `overlap=200`.  The
2500-character text `'a' * 2500` yields 4. -/
theorem c4_counterexample :
    ∃ chunks, chunkText (List.replicate 2500 'a') 1000 200 10 = PyRes.ok chunks ∧
      chunks.length ≠ 3 := by
  refine ⟨_, chunkText_plain_2500 (List.replicate 2500 'a') (List.length_replicate 2500 'a')
      (fun c hc => by rw [List.eq_of_mem_replicate hc]; rfl)
      (fun c hc => by rw [List.eq_of_mem_replicate hc]; rfl), by norm_num⟩

theorem c4_plain_2500_four_chunks_w :
    ∃ chunks, chunkText (List.replicate 2500 'a') 1000 200 10 = PyRes.ok chunks ∧
      chunks.length = 4 ∧
      (buildPoints chunks "txt" "f1" "rag_txt_documents" []).map
          (fun p => List.lookup "chunk_index" p.payload)
        = [some (Val.int 0), some (Val.int 1), some (Val.int 2), some (Val.int 3)] ∧
      (buildPoints chunks "txt" "f1" "rag_txt_documents" []).map
          (fun p => List.lookup "total_chunks" p.payload)
        = [some (Val.int 4), some (Val.int 4), some (Val.int 4), some (Val.int 4)] :=
  c4_plain_2500_four_chunks (List.replicate 2500 'a') "txt" "f1" "rag_txt_documents"
    (List.length_replicate 2500 'a')
    (fun c hc => by rw [List.eq_of_mem_replicate hc]; rfl)
    (fun c hc => by rw [List.eq_of_mem_replicate hc]; rfl)
